import Mathlib

set_option maxRecDepth 8000
set_option exponentiation.threshold 2000

/-!
Verification development for the `just-weather-server` dataset scripts:
`scripts/generate_city_datasets.py` (the dataset builder) and
`scripts/validate_city_sorting.py` (the sort-order validator).

The Python code is shallowly embedded: strings are Lean `String`s
(sequences of Unicode scalar values, as in Python), machine floats are
modelled by an exact decimal representation `PyFloat`, and exceptions
that the scripts do not catch are modelled with `Except`.
-/

/-! ## Modelled Python / Unicode runtime primitives

These model the external runtime collaborators used by both scripts:
`unicodedata.normalize('NFD', ·)`, `unicodedata.category(·) == 'Mn'`,
`str.lower()`, string comparison, and `float()` / `int()` parsing.
They are not part of the repository's own code.
-/

namespace PyRuntime

/-- Modelled from the Python runtime (`unicodedata.normalize('NFD', s)`):
full canonical decomposition table for the precomposed Latin letters used
in this development.  Code points outside the table decompose to
themselves (true of all ASCII); combining-mark reordering is irrelevant
here because every combining mark is later removed. -/
def nfdTable : List (Char × List Char) :=
  [('À', ['A', '̀']), ('Á', ['A', '́']), ('Â', ['A', '̂']),
   ('Ã', ['A', '̃']), ('Ä', ['A', '̈']), ('Å', ['A', '̊']),
   ('Ç', ['C', '̧']), ('È', ['E', '̀']), ('É', ['E', '́']),
   ('Ê', ['E', '̂']), ('Ë', ['E', '̈']), ('Ì', ['I', '̀']),
   ('Í', ['I', '́']), ('Î', ['I', '̂']), ('Ï', ['I', '̈']),
   ('Ñ', ['N', '̃']), ('Ò', ['O', '̀']), ('Ó', ['O', '́']),
   ('Ô', ['O', '̂']), ('Õ', ['O', '̃']), ('Ö', ['O', '̈']),
   ('Ù', ['U', '̀']), ('Ú', ['U', '́']), ('Û', ['U', '̂']),
   ('Ü', ['U', '̈']), ('Ý', ['Y', '́']),
   ('à', ['a', '̀']), ('á', ['a', '́']), ('â', ['a', '̂']),
   ('ã', ['a', '̃']), ('ä', ['a', '̈']), ('å', ['a', '̊']),
   ('ç', ['c', '̧']), ('è', ['e', '̀']), ('é', ['e', '́']),
   ('ê', ['e', '̂']), ('ë', ['e', '̈']), ('ì', ['i', '̀']),
   ('í', ['i', '́']), ('î', ['i', '̂']), ('ï', ['i', '̈']),
   ('ñ', ['n', '̃']), ('ò', ['o', '̀']), ('ó', ['o', '́']),
   ('ô', ['o', '̂']), ('õ', ['o', '̃']), ('ö', ['o', '̈']),
   ('ù', ['u', '̀']), ('ú', ['u', '́']), ('û', ['u', '̂']),
   ('ü', ['u', '̈']), ('ý', ['y', '́']), ('ÿ', ['y', '̈']),
   ('ă', ['a', '̆']), ('ą', ['a', '̨']), ('ć', ['c', '́']),
   ('č', ['c', '̌']), ('ę', ['e', '̨']), ('š', ['s', '̌']),
   ('ś', ['s', '́']), ('ż', ['z', '̇']), ('ž', ['z', '̌']),
   ('ẵ', ['a', '̆', '̃']),
   ('K', ['K']), ('Å', ['A', '̊'])]

/-- Modelled from the Python runtime: NFD decomposition of one code point
(identity on ASCII and on code points not covered by `nfdTable`). -/
def nfdChar (c : Char) : List Char :=
  if c.toNat < 0x80 then [c]
  else ((nfdTable.find? fun p => p.1 == c).map Prod.snd).getD [c]

/-- Modelled from the Python runtime
(`unicodedata.category(c) == 'Mn'`): the non-spacing combining marks,
restricted to the Combining Diacritical Marks block U+0300–U+036F, which
covers every mark producible by `nfdTable`. -/
def isMn (c : Char) : Bool := decide (0x300 ≤ c.toNat ∧ c.toNat ≤ 0x36F)

/-- Modelled from the Python runtime (`str.lower()` on one code point):
ASCII case mapping; identity elsewhere.  (After transliteration and NFD
in the scripts below, non-ASCII letters either never reach this step or
are discarded by the later allow-list either way.) -/
def pyLower (c : Char) : Char :=
  if 65 ≤ c.toNat ∧ c.toNat ≤ 90 then Char.ofNat (c.toNat + 32) else c

/-- Modelled from the Python runtime: code-point lexicographic strict
comparison of strings (Python's `<` on `str`), on the underlying
character lists. -/
def lexLt : List Char → List Char → Bool
  | _, [] => false
  | [], _ :: _ => true
  | a :: as, b :: bs =>
    if a.toNat < b.toNat then true
    else if b.toNat < a.toNat then false
    else lexLt as bs

/-- Python's `s < t` on strings. -/
def pyStrLt (a b : String) : Bool := lexLt a.data b.data

/-- Python's `s <= t` on strings (equivalently, `not (t < s)`). -/
def pyStrLe (a b : String) : Bool := ! pyStrLt b a

end PyRuntime

/-! ## `scripts/generate_city_datasets.py` : `normalize_city_name` -/

namespace GenScript

/-- The `transliteration_map` dict of
`generate_city_datasets.normalize_city_name` (values are the replacement
character sequences). -/
def transliteration_map : List (Char × List Char) :=
  [('Đ', ['D']), ('đ', ['d']),
   ('Ð', ['D']), ('ð', ['d']),
   ('Ø', ['O']), ('ø', ['o']),
   ('Æ', ['A', 'E']), ('æ', ['a', 'e']),
   ('Œ', ['O', 'E']), ('œ', ['o', 'e']),
   ('ẞ', ['S', 'S']), ('ß', ['s', 's']),
   ('Þ', ['T', 'H']), ('þ', ['t', 'h']),
   ('Ł', ['L']), ('ł', ['l'])]

/-- Lookup in `transliteration_map` (`char in transliteration_map`). -/
def translitChar (c : Char) : Option (List Char) :=
  (transliteration_map.find? fun p => p.1 == c).map Prod.snd

/-- Step 1 of `normalize_city_name`: apply the special transliterations
character by character, passing unmapped characters through. -/
def applyTranslit (l : List Char) : List Char :=
  l.flatMap fun c => (translitChar c).getD [c]

/-- Step 2 of `normalize_city_name`: NFD decomposition. -/
def applyNFD (l : List Char) : List Char :=
  l.flatMap PyRuntime.nfdChar

/-- The allow-list test of step 3 of `normalize_city_name`, written on
`ord` values exactly as the source compares `ord(char_lower)`:
`a`–`z`, `0`–`9`, space, hyphen, underscore. -/
def isAllowedChar (c : Char) : Bool :=
  (97 ≤ c.toNat && c.toNat ≤ 122) || (48 ≤ c.toNat && c.toNat ≤ 57)
    || c.toNat == 32 || c.toNat == 45 || c.toNat == 95

/-- Step 3 of `normalize_city_name`: skip combining marks, lowercase,
and keep only allow-listed characters. -/
def filterChars : List Char → List Char
  | [] => []
  | c :: rest =>
    if PyRuntime.isMn c then filterChars rest
    else if isAllowedChar (PyRuntime.pyLower c) then
      PyRuntime.pyLower c :: filterChars rest
    else filterChars rest

/-- `generate_city_datasets.normalize_city_name`. -/
def normalize_city_name (name : String) : String :=
  if name = "" then ""
  else String.mk (filterChars (applyNFD (applyTranslit name.data)))

end GenScript

/-! ## `scripts/validate_city_sorting.py` : `normalize_city_name`
(the source states it is an exact copy of the generator's function) -/

namespace ValScript

/-- The `transliteration_map` dict of
`validate_city_sorting.normalize_city_name`. -/
def transliteration_map : List (Char × List Char) :=
  [('Đ', ['D']), ('đ', ['d']),
   ('Ð', ['D']), ('ð', ['d']),
   ('Ø', ['O']), ('ø', ['o']),
   ('Æ', ['A', 'E']), ('æ', ['a', 'e']),
   ('Œ', ['O', 'E']), ('œ', ['o', 'e']),
   ('ẞ', ['S', 'S']), ('ß', ['s', 's']),
   ('Þ', ['T', 'H']), ('þ', ['t', 'h']),
   ('Ł', ['L']), ('ł', ['l'])]

/-- Lookup in the validator's `transliteration_map`. -/
def translitChar (c : Char) : Option (List Char) :=
  (transliteration_map.find? fun p => p.1 == c).map Prod.snd

/-- Step 1 of the validator's `normalize_city_name`. -/
def applyTranslit (l : List Char) : List Char :=
  l.flatMap fun c => (translitChar c).getD [c]

/-- Step 2 of the validator's `normalize_city_name`: NFD decomposition. -/
def applyNFD (l : List Char) : List Char :=
  l.flatMap PyRuntime.nfdChar

/-- The allow-list test of step 3 of the validator's
`normalize_city_name`. -/
def isAllowedChar (c : Char) : Bool :=
  (97 ≤ c.toNat && c.toNat ≤ 122) || (48 ≤ c.toNat && c.toNat ≤ 57)
    || c.toNat == 32 || c.toNat == 45 || c.toNat == 95

/-- Step 3 of the validator's `normalize_city_name`. -/
def filterChars : List Char → List Char
  | [] => []
  | c :: rest =>
    if PyRuntime.isMn c then filterChars rest
    else if isAllowedChar (PyRuntime.pyLower c) then
      PyRuntime.pyLower c :: filterChars rest
    else filterChars rest

/-- `validate_city_sorting.normalize_city_name`. -/
def normalize_city_name (name : String) : String :=
  if name = "" then ""
  else String.mk (filterChars (applyNFD (applyTranslit name.data)))

end ValScript

/-! ## Modelled Python numeric parsing (`float(...)`, `int(...)`)

`float()` and `int()` are runtime collaborators of the generator script.
A Python float is modelled exactly as a signed decimal value
`sig * 10 ^ exp10`; the model keeps the exact decimal value where CPython
rounds to the nearest IEEE double (no claim depends on that rounding),
maps decimal literals of magnitude at least `2 ^ 1024` to the infinities
(as `float("1e999")` does), and covers the grammar of ASCII-whitespace
padded signed decimal literals plus the case-insensitive `inf`,
`infinity` and `nan` keywords (digit-group underscores are out of the
model's scope; no claim involves them). -/

namespace PyRuntime

/-- A CPython `float` value, as an exact decimal. -/
inductive PyFloat where
  | finite (sig : Int) (exp10 : Int)
  | inf
  | neginf
  | nan
deriving DecidableEq

/-- Whether a `PyFloat` is a finite number. -/
def PyFloat.isFinite : PyFloat → Bool
  | .finite _ _ => true
  | _ => false

/-- Python exceptions relevant to the scripts. -/
inductive PyExc where
  | valueError
  | keyError
  | overflowError
deriving DecidableEq

/-- ASCII whitespace accepted (and stripped) by `float()`. -/
def isWs (c : Char) : Bool := c.toNat == 32 || (9 ≤ c.toNat && c.toNat ≤ 13)

/-- ASCII digit test. -/
def isDigitCh (c : Char) : Bool := 48 ≤ c.toNat && c.toNat ≤ 57

/-- Decimal digit run to a natural number. -/
def digitsToNat (l : List Char) : Nat :=
  l.foldl (fun n c => 10 * n + (c.toNat - 48)) 0

/-- Parse the mantissa part `digits [. digits]` of a float literal;
returns the integer significand, the number of fraction digits, and the
unconsumed rest.  Fails when no digit is present. -/
def parseMantissa (l : List Char) : Option (Nat × Nat × List Char) :=
  let ip := l.takeWhile isDigitCh
  let r1 := l.dropWhile isDigitCh
  match r1 with
  | '.' :: r =>
    let fp := r.takeWhile isDigitCh
    let r2 := r.dropWhile isDigitCh
    if ip.isEmpty && fp.isEmpty then none
    else some (digitsToNat ip * 10 ^ fp.length + digitsToNat fp, fp.length, r2)
  | _ =>
    if ip.isEmpty then none else some (digitsToNat ip, 0, r1)

/-- Parse an optional exponent part `e[±]digits`; absent exponent is 0.
Fails on a dangling `e`. -/
def parseExpPart (l : List Char) : Option (Int × List Char) :=
  match l with
  | 'e' :: r | 'E' :: r =>
    let sr : Int × List Char :=
      match r with
      | '+' :: t => (1, t)
      | '-' :: t => (-1, t)
      | t => (1, t)
    let ds := sr.2.takeWhile isDigitCh
    let r2 := sr.2.dropWhile isDigitCh
    if ds.isEmpty then none else some (sr.1 * (digitsToNat ds : Int), r2)
  | _ => some (0, l)

/-- The smallest decimal magnitude the model maps to an infinity. -/
def overflowBound : Nat := 2 ^ 1024

/-- Whether `|sig| * 10 ^ exp10` reaches the overflow bound. -/
def decimalOverflows (sig : Int) (exp10 : Int) : Bool :=
  if 0 ≤ exp10 then overflowBound ≤ sig.natAbs * 10 ^ exp10.toNat
  else overflowBound * 10 ^ (-exp10).toNat ≤ sig.natAbs

/-- Strip ASCII whitespace from both ends. -/
def stripWs (l : List Char) : List Char :=
  ((l.dropWhile isWs).reverse.dropWhile isWs).reverse

/-- ASCII-lowercase a character list (for keyword comparison). -/
def asciiLowerAll (l : List Char) : List Char := l.map pyLower

/-- Modelled from the Python runtime: `float(s)`, returning `none` where
CPython raises `ValueError`. -/
def pyFloatOfString (s : String) : Option PyFloat :=
  let l := stripWs s.data
  let sgnRest : Int × List Char :=
    match l with
    | '+' :: t => (1, t)
    | '-' :: t => (-1, t)
    | t => (1, t)
  let low := asciiLowerAll sgnRest.2
  if low = "inf".data ∨ low = "infinity".data then
    some (if sgnRest.1 = 1 then .inf else .neginf)
  else if low = "nan".data then some .nan
  else
    match parseMantissa sgnRest.2 with
    | none => none
    | some (m, fdigits, rest) =>
      match parseExpPart rest with
      | none => none
      | some (e, rest2) =>
        if rest2.isEmpty then
          let sig : Int := sgnRest.1 * (m : Int)
          let exp10 : Int := e - (fdigits : Int)
          if decimalOverflows sig exp10 then
            some (if 0 ≤ sig then .inf else .neginf)
          else some (.finite sig exp10)
        else none

/-- Truncation toward zero of `sig * 10 ^ exp10` (Python's `int()` on a
finite float). -/
def truncDecimal (sig : Int) (exp10 : Int) : Int :=
  if 0 ≤ exp10 then sig * (10 : Int) ^ exp10.toNat
  else sig.tdiv ((10 : Int) ^ (-exp10).toNat)

/-- Modelled from the Python runtime: `int(f)` for a float `f`; raises
`ValueError` on `nan` and `OverflowError` on the infinities. -/
def pyIntOfFloat : PyFloat → Except PyExc Int
  | .finite s e => .ok (truncDecimal s e)
  | .inf => .error .overflowError
  | .neginf => .error .overflowError
  | .nan => .error .valueError

end PyRuntime

/-! ## `scripts/generate_city_datasets.py` : `main` (the dataset builder) -/

namespace GenScript

open PyRuntime

/-- A CSV row as produced by `csv.DictReader`: each field is `none` when
the corresponding column is absent from the file (in which case the
subscript `row[...]` raises `KeyError`). -/
structure Row where
  city : Option String
  country : Option String
  iso2 : Option String
  lat : Option String
  lng : Option String
  population : Option String
deriving DecidableEq

/-- The city dict built per row by `main`. -/
structure City where
  name : String
  country : String
  country_code : String
  lat : PyFloat
  lon : PyFloat
  population : Int
deriving DecidableEq

/-- The body of `main`'s population `try` block:
`int(float(row['population'])) if row['population'] else 0`, where a
missing column raises `KeyError`, an unparseable string raises
`ValueError` (from `float`), `int()` of `nan` raises `ValueError`, and
`int()` of an infinity raises `OverflowError`. -/
def parsePopulationRaw (p : Option String) : Except PyExc Int :=
  match p with
  | none => .error .keyError
  | some s =>
    if s = "" then .ok 0
    else
      match pyFloatOfString s with
      | none => .error .valueError
      | some f => pyIntOfFloat f

/-- `main`'s population parsing with its `except (ValueError, KeyError)`
handler, which defaults to 0; `OverflowError` is not caught and
propagates. -/
def parsePopulation (p : Option String) : Except PyExc Int :=
  match parsePopulationRaw p with
  | .error .valueError => .ok 0
  | .error .keyError => .ok 0
  | r => r

/-- `main`'s coordinate parsing: `float(row['lat'])`, `float(row['lng'])`
inside a `try` catching `ValueError` and `KeyError`; `none` means the
row is skipped (`continue`). -/
def parseCoords (lat lng : Option String) : Option (PyFloat × PyFloat) :=
  match lat with
  | none => none
  | some s =>
    match pyFloatOfString s with
    | none => none
    | some f =>
      match lng with
      | none => none
      | some t =>
        match pyFloatOfString t with
        | none => none
        | some g => some (f, g)

/-- Whether a coordinate field parses at all under `float()`: `none`
when the column is absent (`KeyError`) or `float` raises
(`ValueError`). -/
def fieldFloat (f : Option String) : Option PyFloat :=
  match f with
  | none => none
  | some s => pyFloatOfString s

/-- One iteration of `main`'s row loop: parse the population, then the
coordinates (skipping the row when they do not parse), then build the
city dict; `row['city']` / `row['country']` / `row['iso2']` raise
uncaught `KeyError` when the columns are absent. -/
def processRow (r : Row) : Except PyExc (Option City) := do
  let pop ← parsePopulation r.population
  match parseCoords r.lat r.lng with
  | none => .ok none
  | some (la, ln) =>
    match r.city with
    | none => .error .keyError
    | some nm =>
      match r.country with
      | none => .error .keyError
      | some co =>
        match r.iso2 with
        | none => .error .keyError
        | some i2 =>
          .ok (some { name := nm, country := co, country_code := i2,
                      lat := la, lon := ln, population := pop })

/-- `main`'s reading loop over all CSV rows, in order. -/
def readRows : List Row → Except PyExc (List City)
  | [] => .ok []
  | r :: rs => do
    let c? ← processRow r
    let rest ← readRows rs
    match c? with
    | none => .ok rest
    | some c => .ok (c :: rest)

/-- The sort relation of `cities.sort(key=lambda x:
normalize_city_name(x['name']))`: comparison of normalized names. -/
def cityLe (a b : City) : Bool :=
  pyStrLe (normalize_city_name a.name) (normalize_city_name b.name)

/-- Stable insertion of a city into an already sorted list. -/
def insertSorted (c : City) : List City → List City
  | [] => [c]
  | d :: ds => if cityLe c d then c :: d :: ds else d :: insertSorted c ds

/-- `cities.sort(key=...)`: Python's list sort is a stable sort by the
key; a stable sort by a total preorder has a unique result, modelled
here by stable insertion sort. -/
def sortCities : List City → List City
  | [] => []
  | c :: cs => insertSorted c (sortCities cs)

/-- `HOT_CITIES_COUNT` in `main`. -/
def HOT_CITIES_COUNT : Nat := 500

/-- `ALL_CITIES_COUNT` in `main`. -/
def ALL_CITIES_COUNT : Nat := 48000

/-- The builder pipeline of `main` with the two prefix limits as
parameters: read and filter the rows, sort by normalized name, and take
the two prefix views `cities[:hot_limit]` and `cities[:all_limit]`. -/
def build (rows : List Row) (hotLimit allLimit : Nat) :
    Except PyExc (List City × List City) := do
  let cities ← readRows rows
  let sorted := sortCities cities
  .ok (sorted.take hotLimit, sorted.take allLimit)

/-- `main` as in the source, with its hard-coded limits. -/
def mainBuild (rows : List Row) : Except PyExc (List City × List City) :=
  build rows HOT_CITIES_COUNT ALL_CITIES_COUNT

end GenScript

/-! ## `scripts/validate_city_sorting.py` : `validate_sorting` -/

namespace ValScript

/-- A record of the loaded `cities` array, projected to the only field
`validate_sorting` reads; `name = none` models a JSON object with no
`name` key. -/
structure VRecord where
  name : Option String
deriving DecidableEq

/-- One entry appended to the `errors` list of `validate_sorting`
(modelled structurally instead of as a formatted message): a
missing-`name` report, or a sorting-violation report carrying the index,
both raw names and both computed keys. -/
inductive VEntry where
  | missingName (i : Nat)
  | violation (i : Nat) (prevName prevKey currName currKey : String)
deriving DecidableEq

/-- The error component of `validate_sorting`'s result (the source
returns a message string; modelled structurally). -/
inductive VError where
  | loadFailed
  | invalidFormat
  | emptyCities
  | entries (es : List VEntry)
deriving DecidableEq

/-- The `stats` dict of `validate_sorting`. -/
structure VStats where
  total : Nat
  first : Option String
  last : Option String
deriving DecidableEq

/-- The input to `validate_sorting` after the I/O boundary:
`loadError` models an unreadable file or malformed JSON (`json.load`
raised), `badFormat` a document without a `cities` list, and `cities`
the loaded array. -/
inductive VInput where
  | loadError
  | badFormat
  | cities (cs : List VRecord)
deriving DecidableEq

/-- The record loop of `validate_sorting`: `st` is the
`(prev_city['name'], prev_normalized)` tracker (`none` before any named
record), `i` the index of the next record.  A record without `name`
appends a missing-name entry and `continue`s without touching the
tracker; a named record is compared against the tracker and then becomes
the tracker. -/
def checkGo : Option (String × String) → Nat → List VRecord → List VEntry
  | _, _, [] => []
  | st, i, r :: rest =>
    match r.name with
    | none => .missingName i :: checkGo st (i + 1) rest
    | some nm =>
      (match st with
       | none => []
       | some pp =>
         if PyRuntime.pyStrLt (normalize_city_name nm) pp.2 then
           [.violation i pp.1 pp.2 nm (normalize_city_name nm)]
         else []) ++ checkGo (some (nm, normalize_city_name nm)) (i + 1) rest

/-- `validate_sorting` (with loading modelled by `VInput`): returns the
`(is_valid, error_message, stats)` triple. -/
def validate_sorting : VInput → Bool × Option VError × Option VStats
  | .loadError => (false, some .loadFailed, none)
  | .badFormat => (false, some .invalidFormat, none)
  | .cities cs =>
    if cs.length = 0 then (false, some .emptyCities, none)
    else if (checkGo none 0 cs).isEmpty then
      (true, none,
        some ⟨cs.length, cs.head?.bind VRecord.name, cs.getLast?.bind VRecord.name⟩)
    else (false, some (.entries (checkGo none 0 cs)), none)

end ValScript

/-! ## Concrete rows and records used to exercise the definitions -/

/-- A CSV row whose `lat` field is the string `inf`: `float("inf")`
succeeds, so the row is retained with a non-finite latitude. -/
def c5InfRow : GenScript.Row :=
  ⟨some "X", some "C", some "CC", some "inf", some "0", some ""⟩

/-- A CSV row whose `lat` field does not parse as a number. -/
def c5WitRow : GenScript.Row :=
  ⟨some "W", some "C", some "CC", some "x", some "1", some ""⟩

/-- A CSV row with a negative `population` string. -/
def c9NegRow : GenScript.Row :=
  ⟨some "Y", some "C", some "CC", some "1.0", some "2.0", some "-5"⟩

/-- Sample rows for the builder: names sort as `A` before `B`. -/
def c2Row1 : GenScript.Row :=
  ⟨some "B", some "C1", some "CC", some "1", some "2", some "7"⟩

/-- Second sample row for the builder. -/
def c2Row2 : GenScript.Row :=
  ⟨some "A", some "C2", some "DD", some "3", some "4", some ""⟩

/-- The city produced from `c2Row2`. -/
def c2CityA : GenScript.City :=
  ⟨"A", "C2", "DD", .finite 3 0, .finite 4 0, 0⟩

/-- The city produced from `c2Row1`. -/
def c2CityB : GenScript.City :=
  ⟨"B", "C1", "CC", .finite 1 0, .finite 2 0, 7⟩

/-- A single-record row set for the prefix-view claims. -/
def c6Row : GenScript.Row :=
  ⟨some "Z", some "C", some "CC", some "0", some "0", none⟩

/-- The city produced from `c6Row`. -/
def c6City : GenScript.City :=
  ⟨"Z", "C", "CC", .finite 0 0, .finite 0 0, 0⟩

/-! ## Order properties of the modelled Python string comparison -/

namespace PyRuntime

theorem char_eq_of_toNat_eq {a b : Char} (h : a.toNat = b.toNat) : a = b := by
  have h2 := congrArg Char.ofNat h
  simpa using h2

theorem lexLt_irrefl : ∀ l : List Char, lexLt l l = false
  | [] => rfl
  | _ :: as => by simp [lexLt, lexLt_irrefl as]

theorem lexLt_trans : ∀ a b c : List Char,
    lexLt a b = true → lexLt b c = true → lexLt a c = true
  | _, _, [], _, h2 => by simp [lexLt] at h2
  | [], [], _ :: _, h1, _ => by simp [lexLt] at h1
  | _ :: _, [], _ :: _, h1, _ => by simp [lexLt] at h1
  | [], _ :: _, _ :: _, _, _ => by simp [lexLt]
  | a :: as, b :: bs, c :: cs, h1, h2 => by
    simp only [lexLt] at h1 h2 ⊢
    by_cases hab : a.toNat < b.toNat
    · by_cases hbc : b.toNat < c.toNat
      · rw [if_pos (by omega)]
      · rw [if_neg hbc] at h2
        by_cases hcb : c.toNat < b.toNat
        · rw [if_pos hcb] at h2; exact absurd h2 (by simp)
        · rw [if_pos (by omega)]
    · rw [if_neg hab] at h1
      by_cases hba : b.toNat < a.toNat
      · rw [if_pos hba] at h1; exact absurd h1 (by simp)
      · rw [if_neg hba] at h1
        by_cases hbc : b.toNat < c.toNat
        · rw [if_pos (by omega)]
        · rw [if_neg hbc] at h2
          by_cases hcb : c.toNat < b.toNat
          · rw [if_pos hcb] at h2; exact absurd h2 (by simp)
          · rw [if_neg hcb] at h2
            rw [if_neg (by omega), if_neg (by omega)]
            exact lexLt_trans as bs cs h1 h2

theorem lexLt_trichotomy : ∀ a b : List Char,
    lexLt a b = true ∨ a = b ∨ lexLt b a = true
  | [], [] => Or.inr (Or.inl rfl)
  | [], _ :: _ => Or.inl (by simp [lexLt])
  | _ :: _, [] => Or.inr (Or.inr (by simp [lexLt]))
  | a :: as, b :: bs => by
    rcases Nat.lt_trichotomy a.toNat b.toNat with h | h | h
    · exact Or.inl (by simp [lexLt, h])
    · have hab : a = b := char_eq_of_toNat_eq h
      subst hab
      rcases lexLt_trichotomy as bs with h1 | h1 | h1
      · exact Or.inl (by simp [lexLt, h1])
      · exact Or.inr (Or.inl (by rw [h1]))
      · exact Or.inr (Or.inr (by simp [lexLt, h1]))
    · exact Or.inr (Or.inr (by simp [lexLt, h]))

theorem pyStrLe_total (a b : String) : pyStrLe a b = true ∨ pyStrLe b a = true := by
  simp only [pyStrLe, pyStrLt, Bool.not_eq_true']
  by_cases h1 : lexLt b.data a.data = true
  · by_cases h2 : lexLt a.data b.data = true
    · have := lexLt_trans _ _ _ h1 h2
      rw [lexLt_irrefl] at this
      exact absurd this (by simp)
    · exact Or.inr (by simpa using h2)
  · exact Or.inl (by simpa using h1)

theorem pyStrLe_trans {a b c : String} (h1 : pyStrLe a b = true)
    (h2 : pyStrLe b c = true) : pyStrLe a c = true := by
  simp only [pyStrLe, pyStrLt, Bool.not_eq_true'] at h1 h2 ⊢
  by_cases hca : lexLt c.data a.data = true
  · rcases lexLt_trichotomy b.data c.data with hbc | hbc | hbc
    · have := lexLt_trans _ _ _ hbc hca
      rw [this] at h1; exact absurd h1 (by simp)
    · rw [hbc] at h1; rw [hca] at h1; exact absurd h1 (by simp)
    · rw [hbc] at h2; exact absurd h2 (by simp)
  · simpa using hca

end PyRuntime

/-! ## Sortedness of the builder's output -/

namespace GenScript

open PyRuntime

theorem cityLe_total (a b : City) : cityLe a b = true ∨ cityLe b a = true :=
  pyStrLe_total _ _

theorem cityLe_trans {a b c : City} (h1 : cityLe a b = true)
    (h2 : cityLe b c = true) : cityLe a c = true :=
  pyStrLe_trans h1 h2

theorem mem_insertSorted :
    ∀ (c : City) (l : List City) (x : City), x ∈ insertSorted c l ↔ x = c ∨ x ∈ l
  | c, [], x => by simp [insertSorted]
  | c, d :: ds, x => by
    simp only [insertSorted]
    by_cases hcd : cityLe c d = true
    · rw [if_pos hcd]
      simp only [List.mem_cons]
    · rw [if_neg hcd]
      simp only [List.mem_cons, mem_insertSorted c ds x]
      tauto

theorem pairwise_insertSorted :
    ∀ (c : City) (l : List City), l.Pairwise (fun x y => cityLe x y = true) →
      (insertSorted c l).Pairwise (fun x y => cityLe x y = true)
  | c, [], _ => by simp [insertSorted]
  | c, d :: ds, h => by
    simp only [insertSorted]
    rcases List.pairwise_cons.mp h with ⟨hd, hds⟩
    by_cases hcd : cityLe c d = true
    · rw [if_pos hcd]
      refine List.pairwise_cons.mpr ⟨?_, h⟩
      intro x hx
      rcases List.mem_cons.mp hx with rfl | hx
      · exact hcd
      · exact cityLe_trans hcd (hd x hx)
    · rw [if_neg hcd]
      refine List.pairwise_cons.mpr ⟨?_, pairwise_insertSorted c ds hds⟩
      intro x hx
      rcases (mem_insertSorted c ds x).mp hx with hxc | hx
      · rw [hxc]
        rcases cityLe_total c d with h1 | h1
        · exact absurd h1 hcd
        · exact h1
      · exact hd x hx

theorem perm_insertSorted :
    ∀ (c : City) (l : List City), List.Perm (insertSorted c l) (c :: l)
  | c, [] => by simp [insertSorted]
  | c, d :: ds => by
    simp only [insertSorted]
    by_cases hcd : cityLe c d = true
    · rw [if_pos hcd]
    · rw [if_neg hcd]
      exact ((perm_insertSorted c ds).cons d).trans (List.Perm.swap c d ds)

theorem pairwise_sortCities :
    ∀ l : List City, (sortCities l).Pairwise (fun x y => cityLe x y = true)
  | [] => by simp [sortCities]
  | c :: cs => pairwise_insertSorted c (sortCities cs) (pairwise_sortCities cs)

theorem perm_sortCities : ∀ l : List City, List.Perm (sortCities l) l
  | [] => List.Perm.refl _
  | c :: cs => by
    simpa [sortCities] using (perm_insertSorted c (sortCities cs)).trans
      ((perm_sortCities cs).cons c)

end GenScript

/-! ## Agreement of the two `normalize_city_name` copies -/

theorem genval_isAllowedChar_eq : GenScript.isAllowedChar = ValScript.isAllowedChar := rfl

theorem genval_applyTranslit_eq : GenScript.applyTranslit = ValScript.applyTranslit := rfl

theorem genval_applyNFD_eq : GenScript.applyNFD = ValScript.applyNFD := rfl

theorem genval_filterChars_eq : ∀ l, GenScript.filterChars l = ValScript.filterChars l
  | [] => rfl
  | c :: rest => by
    simp only [GenScript.filterChars, ValScript.filterChars, genval_isAllowedChar_eq,
      genval_filterChars_eq rest]

/-! ## Characters surviving the allow-list filter are fixed by normalization -/

namespace GenScript

theorem allowed_toNat {c : Char} (h : isAllowedChar c = true) :
    (97 ≤ c.toNat ∧ c.toNat ≤ 122) ∨ (48 ≤ c.toNat ∧ c.toNat ≤ 57) ∨
      c.toNat = 32 ∨ c.toNat = 45 ∨ c.toNat = 95 := by
  simp only [isAllowedChar, Bool.or_eq_true, Bool.and_eq_true,
    decide_eq_true_eq, beq_iff_eq] at h
  tauto

theorem allowed_le122 {c : Char} (h : isAllowedChar c = true) : c.toNat ≤ 122 := by
  rcases allowed_toNat h with ⟨h1, h2⟩ | ⟨h1, h2⟩ | h1 | h1 | h1 <;> omega

theorem find_none_of_big (c : Char) (hc : c.toNat ≤ 122) :
    ∀ tbl : List (Char × List Char), (∀ p ∈ tbl, 128 ≤ p.1.toNat) →
      tbl.find? (fun p => p.1 == c) = none
  | [], _ => rfl
  | p :: ps, h => by
    have h1 : 128 ≤ p.1.toNat := h p (List.mem_cons_self p ps)
    have h2 : (p.1 == c) = false := by
      apply beq_eq_false_iff_ne.mpr
      intro e
      rw [e] at h1
      omega
    simp [List.find?, h2,
      find_none_of_big c hc ps (fun q hq => h q (List.mem_cons_of_mem p hq))]

theorem allowed_translitChar {c : Char} (h : isAllowedChar c = true) :
    translitChar c = none := by
  simp only [translitChar]
  rw [find_none_of_big c (allowed_le122 h) transliteration_map (by decide)]
  rfl

theorem allowed_nfdChar {c : Char} (h : isAllowedChar c = true) :
    PyRuntime.nfdChar c = [c] := by
  have hc := allowed_le122 h
  simp only [PyRuntime.nfdChar]
  rw [if_pos (by omega)]

theorem allowed_isMn {c : Char} (h : isAllowedChar c = true) :
    PyRuntime.isMn c = false := by
  have hc := allowed_le122 h
  simp only [PyRuntime.isMn, decide_eq_false_iff_not]
  omega

theorem allowed_pyLower {c : Char} (h : isAllowedChar c = true) :
    PyRuntime.pyLower c = c := by
  simp only [PyRuntime.pyLower]
  rcases allowed_toNat h with ⟨h1, h2⟩ | ⟨h1, h2⟩ | h1 | h1 | h1 <;>
    rw [if_neg (by omega)]

theorem filterChars_allowed :
    ∀ (l : List Char) (c : Char), c ∈ filterChars l → isAllowedChar c = true
  | [], c => by simp [filterChars]
  | d :: rest, c => by
    simp only [filterChars]
    by_cases h1 : PyRuntime.isMn d = true
    · rw [if_pos h1]
      exact filterChars_allowed rest c
    · rw [if_neg (by simpa using h1)]
      by_cases h2 : isAllowedChar (PyRuntime.pyLower d) = true
      · rw [if_pos h2]
        intro hc
        rcases List.mem_cons.mp hc with hce | hcm
        · rw [hce]; exact h2
        · exact filterChars_allowed rest c hcm
      · rw [if_neg h2]
        exact filterChars_allowed rest c

theorem allowed_applyTranslit_fix :
    ∀ l : List Char, (∀ c ∈ l, isAllowedChar c = true) → applyTranslit l = l
  | [], _ => rfl
  | c :: rest, h => by
    have hc := h c (List.mem_cons_self c rest)
    have ih := allowed_applyTranslit_fix rest (fun d hd => h d (List.mem_cons_of_mem c hd))
    simp only [applyTranslit, List.flatMap_cons] at ih ⊢
    rw [allowed_translitChar hc]
    simpa using ih

theorem allowed_applyNFD_fix :
    ∀ l : List Char, (∀ c ∈ l, isAllowedChar c = true) → applyNFD l = l
  | [], _ => rfl
  | c :: rest, h => by
    have hc := h c (List.mem_cons_self c rest)
    have ih := allowed_applyNFD_fix rest (fun d hd => h d (List.mem_cons_of_mem c hd))
    simp only [applyNFD, List.flatMap_cons] at ih ⊢
    rw [allowed_nfdChar hc]
    simpa using ih

theorem allowed_filterChars_fix :
    ∀ l : List Char, (∀ c ∈ l, isAllowedChar c = true) → filterChars l = l
  | [], _ => rfl
  | c :: rest, h => by
    have hc := h c (List.mem_cons_self c rest)
    have ih := allowed_filterChars_fix rest (fun d hd => h d (List.mem_cons_of_mem c hd))
    simp only [filterChars]
    rw [if_neg (by simp [allowed_isMn hc]), allowed_pyLower hc, if_pos hc, ih]

/-! ### Unfolding the builder pipeline -/

theorem build_ok_elim {rows : List Row} {hl al : Nat} {hot all : List City}
    (hb : build rows hl al = .ok (hot, all)) :
    ∃ cs, readRows rows = .ok cs ∧
      hot = (sortCities cs).take hl ∧ all = (sortCities cs).take al := by
  unfold build at hb
  cases hr : readRows rows with
  | error e =>
    rw [hr] at hb
    simp [Bind.bind, Except.bind] at hb
  | ok cs =>
    rw [hr] at hb
    simp only [Bind.bind, Except.bind, Except.ok.injEq, Prod.mk.injEq] at hb
    exact ⟨cs, rfl, hb.1.symm, hb.2.symm⟩

end GenScript

/-! ## Membership facts about the validator's accumulated error list -/

namespace ValScript

theorem mem_checkGo_missing :
    ∀ (cs : List VRecord) (st : Option (String × String)) (n i : Nat)
      (h : i < cs.length), (cs.get ⟨i, h⟩).name = none →
      VEntry.missingName (n + i) ∈ checkGo st n cs
  | [], _, _, i, h, _ => absurd h (by simp)
  | r :: rest, st, n, 0, _, hname => by
    have hr : r.name = none := by simpa using hname
    simp [checkGo, hr]
  | r :: rest, st, n, i + 1, h, hname => by
    have h2 : i < rest.length := by simpa using h
    have hname2 : (rest.get ⟨i, h2⟩).name = none := by simpa using hname
    have heq : n + (i + 1) = (n + 1) + i := by omega
    cases hr : r.name with
    | none =>
      have ih := mem_checkGo_missing rest st (n + 1) i h2 hname2
      simp only [checkGo, hr, heq]
      exact List.mem_cons_of_mem _ ih
    | some nm =>
      have ih := mem_checkGo_missing rest (some (nm, normalize_city_name nm))
        (n + 1) i h2 hname2
      simp only [checkGo, hr, heq]
      exact List.mem_append_right _ ih

theorem mem_checkGo_violation :
    ∀ (cs : List VRecord) (st : Option (String × String)) (n i : Nat)
      (h1 : i < cs.length) (h2 : i + 1 < cs.length) (na nb : String),
      (cs.get ⟨i, h1⟩).name = some na → (cs.get ⟨i + 1, h2⟩).name = some nb →
      PyRuntime.pyStrLt (normalize_city_name nb) (normalize_city_name na) = true →
      VEntry.violation (n + (i + 1)) na (normalize_city_name na) nb
        (normalize_city_name nb) ∈ checkGo st n cs
  | [], _, _, i, h1, _, _, _, _, _, _ => absurd h1 (by simp)
  | [r], _, _, 0, _, h2, _, _, _, _, _ => absurd h2 (by simp)
  | r :: c :: rest, st, n, 0, _, _, na, nb, hna, hnb, hlt => by
    have hr : r.name = some na := by simpa using hna
    have hc : c.name = some nb := by simpa using hnb
    simp only [checkGo, hr, hc]
    refine List.mem_append_right _ ?_
    have heq : n + (0 + 1) = n + 1 := by omega
    rw [heq]
    simp [hlt]
  | r :: rest, st, n, i + 1, h1, h2, na, nb, hna, hnb, hlt => by
    have h1r : i < rest.length := by simpa using h1
    have h2r : i + 1 < rest.length := by simpa using h2
    have hna2 : (rest.get ⟨i, h1r⟩).name = some na := by simpa using hna
    have hnb2 : (rest.get ⟨i + 1, h2r⟩).name = some nb := by simpa using hnb
    have heq : n + (i + 1 + 1) = (n + 1) + (i + 1) := by omega
    cases hr : r.name with
    | none =>
      have ih := mem_checkGo_violation rest st (n + 1) i h1r h2r na nb hna2 hnb2 hlt
      simp only [checkGo, hr, heq]
      exact List.mem_cons_of_mem _ ih
    | some nm =>
      have ih := mem_checkGo_violation rest (some (nm, normalize_city_name nm))
        (n + 1) i h1r h2r na nb hna2 hnb2 hlt
      simp only [checkGo, hr, heq]
      exact List.mem_append_right _ ih

end ValScript

/-! ## Claims -/

/-- C1: for every input string `s`, the sort key computed by the
generator's normalization function and the one computed by the
validator's normalization function are identical:
`generate_city_datasets.normalize_city_name s =
validate_city_sorting.normalize_city_name s`. -/
theorem c1_normalize_agreement (s : String) :
    GenScript.normalize_city_name s = ValScript.normalize_city_name s := by
  simp only [GenScript.normalize_city_name, ValScript.normalize_city_name,
    genval_applyTranslit_eq, genval_applyNFD_eq, genval_filterChars_eq]

/-- C7: `normalize_city_name` is idempotent on its own output: if
`t = normalize_city_name s` then `normalize_city_name t = t`. -/
theorem c7_normalize_idempotent (s t : String)
    (h : t = GenScript.normalize_city_name s) :
    GenScript.normalize_city_name t = t := by
  by_cases hs : s = ""
  · subst hs
    rw [h]
    rfl
  · have ht : t = String.mk (GenScript.filterChars
        (GenScript.applyNFD (GenScript.applyTranslit s.data))) := by
      rw [h, GenScript.normalize_city_name, if_neg hs]
    by_cases ht0 : t = ""
    · rw [ht0]
      rfl
    · rw [GenScript.normalize_city_name, if_neg ht0]
      have hall : ∀ c ∈ t.data, GenScript.isAllowedChar c = true := by
        intro c hc
        rw [ht] at hc
        exact GenScript.filterChars_allowed _ c hc
      rw [GenScript.allowed_applyTranslit_fix t.data hall,
        GenScript.allowed_applyNFD_fix t.data hall,
        GenScript.allowed_filterChars_fix t.data hall]

/-- Witness for C7 at a concrete input: `normalize("Köln") = "koln"` and
normalizing `"koln"` again leaves it unchanged. -/
theorem c7_witness : GenScript.normalize_city_name "koln" = "koln" :=
  c7_normalize_idempotent "Köln" "koln" (by decide)

/-- C8: the four worked examples of the specification evaluate as
stated. -/
theorem c8_worked_examples :
    GenScript.normalize_city_name "Đà Nẵng" = "da nang" ∧
    GenScript.normalize_city_name "Søndre Land" = "sondre land" ∧
    GenScript.normalize_city_name "Köln" = "koln" ∧
    GenScript.normalize_city_name "" = "" :=
  ⟨rfl, rfl, rfl, rfl⟩

/-- C2: whenever the builder returns, every pair of adjacent records in
each of the two returned sequences (hot and all) satisfies
`normalize_city_name(prev.name) <= normalize_city_name(curr.name)` under
lexicographic string comparison. -/
theorem c2_build_sorted (rows : List GenScript.Row) (hl al : Nat)
    (hot all : List GenScript.City)
    (hb : GenScript.build rows hl al = .ok (hot, all)) :
    hot.Chain' (fun x y => PyRuntime.pyStrLe (GenScript.normalize_city_name x.name)
        (GenScript.normalize_city_name y.name) = true) ∧
    all.Chain' (fun x y => PyRuntime.pyStrLe (GenScript.normalize_city_name x.name)
        (GenScript.normalize_city_name y.name) = true) := by
  obtain ⟨cs, hcs, hhot, hall⟩ := GenScript.build_ok_elim hb
  have hp := GenScript.pairwise_sortCities cs
  constructor
  · rw [hhot]
    exact (hp.sublist (List.take_sublist _ _)).chain'
  · rw [hall]
    exact (hp.sublist (List.take_sublist _ _)).chain'

/-- Witness for C2: a concrete two-row input whose build output is
sorted. -/
theorem c2_witness :
    List.Chain' (fun x y => PyRuntime.pyStrLe (GenScript.normalize_city_name x.name)
        (GenScript.normalize_city_name y.name) = true) [c2CityA] ∧
    List.Chain' (fun x y => PyRuntime.pyStrLe (GenScript.normalize_city_name x.name)
        (GenScript.normalize_city_name y.name) = true) [c2CityA, c2CityB] :=
  c2_build_sorted [c2Row1, c2Row2] 1 2 [c2CityA] [c2CityA, c2CityB] rfl

/-- C6: for `hot_limit <= all_limit` the hot dataset equals the first
`hot_limit` elements of the all dataset; both views are prefixes of the
same sorted sequence; and when fewer records remain after coordinate
filtering than a requested limit, that view is exactly the available
records, unpadded. -/
theorem c6_prefix_views (rows : List GenScript.Row) (hl al : Nat) (hle : hl ≤ al)
    (hot all : List GenScript.City)
    (hb : GenScript.build rows hl al = .ok (hot, all)) :
    hot = all.take hl ∧
    ∀ cs, GenScript.readRows rows = .ok cs →
      hot = (GenScript.sortCities cs).take hl ∧
      all = (GenScript.sortCities cs).take al ∧
      (cs.length ≤ hl → hot = GenScript.sortCities cs ∧ List.Perm hot cs) ∧
      (cs.length ≤ al → all = GenScript.sortCities cs ∧ List.Perm all cs) := by
  obtain ⟨cs0, hcs0, hhot, hall⟩ := GenScript.build_ok_elim hb
  have hlen : (GenScript.sortCities cs0).length = cs0.length :=
    (GenScript.perm_sortCities cs0).length_eq
  refine ⟨?_, ?_⟩
  · rw [hhot, hall, List.take_take, Nat.min_eq_left hle]
  · intro cs hcs
    rw [hcs0] at hcs
    obtain rfl : cs0 = cs := Except.ok.inj hcs
    refine ⟨hhot, hall, ?_, ?_⟩
    · intro hu
      have h1 : (GenScript.sortCities cs0).length ≤ hl := by rw [hlen]; exact hu
      have h2 : hot = GenScript.sortCities cs0 := by
        rw [hhot, List.take_of_length_le h1]
      exact ⟨h2, h2 ▸ GenScript.perm_sortCities cs0⟩
    · intro hu
      have h1 : (GenScript.sortCities cs0).length ≤ al := by rw [hlen]; exact hu
      have h2 : all = GenScript.sortCities cs0 := by
        rw [hall, List.take_of_length_le h1]
      exact ⟨h2, h2 ▸ GenScript.perm_sortCities cs0⟩

/-- Witness for C6: a concrete one-record build with limits 2 and 3. -/
theorem c6_witness : [c6City] = List.take 2 [c6City] :=
  (c6_prefix_views [c6Row] 2 3 (by decide) [c6City] [c6City] rfl).1

/-- Counterexample to C3 as stated: on the dataset
`[{name: "b"}, {}, {name: "a"}]` the record without `name` produces an
entry in the same accumulated error list as the ordering violation, not
a distinct top-level error; the validator keeps going after it. -/
theorem c3_counterexample :
    ValScript.validate_sorting (.cities [⟨some "b"⟩, ⟨none⟩, ⟨some "a"⟩]) =
      (false, some (.entries [.missingName 1, .violation 2 "b" "b" "a" "a"]),
        none) ∧
    ValScript.VEntry.missingName 1 ∈
      ([ValScript.VEntry.missingName 1,
        ValScript.VEntry.violation 2 "b" "b" "a" "a"] : List ValScript.VEntry) :=
  ⟨rfl, by simp⟩

/-- C3 amended: an empty dataset is a hard failure reported as a single
top-level error (never vacuously valid), but a record lacking `name` is
reported as an entry appended to the same accumulated error list as the
ordering violations (validation continues past it); either way the
dataset is reported invalid. -/
theorem c3_amended :
    ValScript.validate_sorting (.cities []) = (false, some .emptyCities, none) ∧
    ∀ (cs : List ValScript.VRecord) (i : Nat) (h : i < cs.length),
      (cs.get ⟨i, h⟩).name = none →
      (ValScript.validate_sorting (.cities cs)).1 = false ∧
      ∃ es, (ValScript.validate_sorting (.cities cs)).2.1 = some (.entries es) ∧
        ValScript.VEntry.missingName i ∈ es := by
  constructor
  · rfl
  · intro cs i h hname
    have hmem := ValScript.mem_checkGo_missing cs none 0 i h hname
    rw [Nat.zero_add] at hmem
    have hlen : ¬ cs.length = 0 := by omega
    have hne : ValScript.checkGo none 0 cs ≠ [] := List.ne_nil_of_mem hmem
    have hval : ValScript.validate_sorting (.cities cs) =
        (false, some (.entries (ValScript.checkGo none 0 cs)), none) := by
      simp only [ValScript.validate_sorting]
      rw [if_neg hlen, if_neg (by simpa using hne)]
    rw [hval]
    exact ⟨rfl, ValScript.checkGo none 0 cs, rfl, hmem⟩

/-- Witness for C3 (amended) at a concrete dataset with a nameless
record at index 1. -/
theorem c3_witness :
    (ValScript.validate_sorting (.cities [⟨some "b"⟩, ⟨none⟩])).1 = false ∧
    ∃ es, (ValScript.validate_sorting
        (.cities [⟨some "b"⟩, ⟨none⟩])).2.1 = some (.entries es) ∧
      ValScript.VEntry.missingName 1 ∈ es :=
  c3_amended.2 [⟨some "b"⟩, ⟨none⟩] 1 (by decide) rfl

/-- Counterexample to C4 as stated: on a failing dataset the validator
returns `stats = None` — the summary statistics do not accompany the
violation list. -/
theorem c4_counterexample :
    ValScript.validate_sorting (.cities [⟨some "b"⟩, ⟨some "a"⟩]) =
      (false, some (.entries [.violation 1 "b" "b" "a" "a"]), none) ∧
    (ValScript.validate_sorting (.cities [⟨some "b"⟩, ⟨some "a"⟩])).2.2 = none :=
  ⟨rfl, rfl⟩

/-- C4 amended: `ok = true` iff the input is a nonempty `cities` list
whose one-pass accumulated error list (missing-name entries and ordering
violations together) is empty; on success the stats (total, first, last)
are returned; on failure the complete error list is returned and the
stats component is `None`.  The pass never stops early: every nameless
record and every adjacent named inversion contributes an entry. -/
theorem c4_amended (inp : ValScript.VInput) :
    ((ValScript.validate_sorting inp).1 = true ↔
      ∃ cs, inp = .cities cs ∧ cs ≠ [] ∧ ValScript.checkGo none 0 cs = []) ∧
    (∀ cs, inp = .cities cs → cs ≠ [] → ValScript.checkGo none 0 cs ≠ [] →
      ValScript.validate_sorting inp =
        (false, some (.entries (ValScript.checkGo none 0 cs)), none)) ∧
    (∀ cs, inp = .cities cs → cs ≠ [] → ValScript.checkGo none 0 cs = [] →
      ValScript.validate_sorting inp =
        (true, none, some ⟨cs.length, cs.head?.bind ValScript.VRecord.name,
          cs.getLast?.bind ValScript.VRecord.name⟩)) ∧
    (∀ (cs : List ValScript.VRecord) (i : Nat) (h : i < cs.length),
      inp = .cities cs → (cs.get ⟨i, h⟩).name = none →
      ValScript.VEntry.missingName i ∈ ValScript.checkGo none 0 cs) ∧
    (∀ (cs : List ValScript.VRecord) (i : Nat) (h1 : i < cs.length)
      (h2 : i + 1 < cs.length) (na nb : String), inp = .cities cs →
      (cs.get ⟨i, h1⟩).name = some na → (cs.get ⟨i + 1, h2⟩).name = some nb →
      PyRuntime.pyStrLt (ValScript.normalize_city_name nb)
        (ValScript.normalize_city_name na) = true →
      ValScript.VEntry.violation (i + 1) na (ValScript.normalize_city_name na) nb
        (ValScript.normalize_city_name nb) ∈ ValScript.checkGo none 0 cs) := by
  refine ⟨?_, ?_, ?_, ?_, ?_⟩
  · cases inp with
    | loadError => simp [ValScript.validate_sorting]
    | badFormat => simp [ValScript.validate_sorting]
    | cities cs =>
      by_cases h0 : cs.length = 0
      · have hnil : cs = [] := List.length_eq_zero.mp h0
        simp [ValScript.validate_sorting, h0, hnil]
      · by_cases he : (ValScript.checkGo none 0 cs).isEmpty = true
        · have hee : ValScript.checkGo none 0 cs = [] := by
            simpa using he
          simp only [ValScript.validate_sorting]
          rw [if_neg h0, if_pos he]
          simp only [true_iff]
          exact ⟨cs, rfl, by simpa using h0, hee⟩
        · simp only [ValScript.validate_sorting]
          rw [if_neg h0, if_neg he]
          refine iff_of_false (by simp) ?_
          rintro ⟨cs2, hcs2, _, hchk⟩
          obtain rfl : cs = cs2 := ValScript.VInput.cities.inj hcs2
          rw [hchk] at he
          exact he rfl
  · intro cs hcs hne hchk
    subst hcs
    simp only [ValScript.validate_sorting]
    rw [if_neg (by simpa using hne), if_neg (by simpa using hchk)]
  · intro cs hcs hne hchk
    subst hcs
    simp only [ValScript.validate_sorting]
    rw [if_neg (by simpa using hne), if_pos (by simpa using hchk)]
  · intro cs i h hcs hname
    have hmem := ValScript.mem_checkGo_missing cs none 0 i h hname
    rwa [Nat.zero_add] at hmem
  · intro cs i h1 h2 na nb hcs hna hnb hlt
    have hmem := ValScript.mem_checkGo_violation cs none 0 i h1 h2 na nb hna hnb hlt
    rwa [Nat.zero_add] at hmem

/-- Witness for C4 (amended): the failing two-record dataset returns the
complete error list and no stats. -/
theorem c4_witness :
    ValScript.validate_sorting (.cities [⟨some "b"⟩, ⟨some "a"⟩]) =
      (false, some (.entries
        (ValScript.checkGo none 0 [⟨some "b"⟩, ⟨some "a"⟩])), none) :=
  (c4_amended (.cities [⟨some "b"⟩, ⟨some "a"⟩])).2.1
    [⟨some "b"⟩, ⟨some "a"⟩] rfl (by decide) (by decide)

/-- C10 (implicit): when the record at some index lacks `name`, no sort
key is computed for it and the previous-key tracker is passed on
unchanged, so the next named record is compared against the most recent
named record before the gap, and the adjacent pair across the gap is
never itself checked. -/
theorem c10_missing_name_skip (pn pk : String) (n : Nat)
    (r c : ValScript.VRecord) (rest : List ValScript.VRecord)
    (hr : r.name = none) (nm : String) (hc : c.name = some nm) :
    ValScript.checkGo (some (pn, pk)) n (r :: c :: rest) =
      ValScript.VEntry.missingName n ::
        ((if PyRuntime.pyStrLt (ValScript.normalize_city_name nm) pk then
            [ValScript.VEntry.violation (n + 1) pn pk nm
              (ValScript.normalize_city_name nm)]
          else []) ++
          ValScript.checkGo (some (nm, ValScript.normalize_city_name nm))
            (n + 1 + 1) rest) := by
  simp [ValScript.checkGo, hr, hc]

/-- Witness for C10 at a concrete gap: tracker `("b", "b")`, a nameless
record, then `"a"`. -/
theorem c10_witness :
    ValScript.checkGo (some ("b", "b")) 0 [⟨none⟩, ⟨some "a"⟩] =
      ValScript.VEntry.missingName 0 ::
        ((if PyRuntime.pyStrLt (ValScript.normalize_city_name "a") "b" then
            [ValScript.VEntry.violation 1 "b" "b" "a"
              (ValScript.normalize_city_name "a")]
          else []) ++
          ValScript.checkGo (some ("a", ValScript.normalize_city_name "a")) 2 []) :=
  c10_missing_name_skip "b" "b" 0 ⟨none⟩ ⟨some "a"⟩ [] rfl "a" rfl

/-- Counterexample to C5 as stated: the row with `lat = "inf"` parses
(`float("inf")` succeeds), so the record is retained even though its
latitude is not a finite number. -/
theorem c5_counterexample :
    GenScript.processRow c5InfRow =
      .ok (some ⟨"X", "C", "CC", .inf, .finite 0 0, 0⟩) ∧
    PyRuntime.PyFloat.isFinite .inf = false :=
  ⟨rfl, rfl⟩

/-- C5 amended: a record is excluded exactly when its `lat` or `lng`
field is absent or `float()` fails on it (cannot be parsed as a number);
the exclusion is silent (the loop yields no record and raises nothing);
a retained record carries whatever floats parsed — possibly the
non-finite `inf`/`nan` values. -/
theorem c5_amended (r : GenScript.Row) (pop : Int)
    (hp : GenScript.parsePopulation r.population = .ok pop)
    (nm co i2 : String) (hn : r.city = some nm) (hc : r.country = some co)
    (hi : r.iso2 = some i2) :
    (GenScript.processRow r = .ok none ↔
      GenScript.parseCoords r.lat r.lng = none) ∧
    (∀ la ln, GenScript.parseCoords r.lat r.lng = some (la, ln) →
      GenScript.processRow r = .ok (some ⟨nm, co, i2, la, ln, pop⟩)) ∧
    (GenScript.parseCoords r.lat r.lng = none ↔
      GenScript.fieldFloat r.lat = none ∨ GenScript.fieldFloat r.lng = none) := by
  refine ⟨?_, ?_, ?_⟩
  · cases hpc : GenScript.parseCoords r.lat r.lng with
    | none =>
      simp [GenScript.processRow, hp, hpc, Bind.bind, Except.bind]
    | some p =>
      simp [GenScript.processRow, hp, hpc, hn, hc, hi, Bind.bind, Except.bind]
  · intro la ln hpc
    simp only [GenScript.processRow, hp, hpc, hn, hc, hi, Bind.bind, Except.bind]
  · cases hlat : r.lat with
    | none => simp [GenScript.parseCoords, GenScript.fieldFloat]
    | some s =>
      cases hfs : PyRuntime.pyFloatOfString s with
      | none => simp [GenScript.parseCoords, GenScript.fieldFloat, hfs]
      | some f =>
        cases hlng : r.lng with
        | none => simp [GenScript.parseCoords, GenScript.fieldFloat, hfs]
        | some t =>
          cases hft : PyRuntime.pyFloatOfString t with
          | none => simp [GenScript.parseCoords, GenScript.fieldFloat, hfs, hft]
          | some g => simp [GenScript.parseCoords, GenScript.fieldFloat, hfs, hft]

/-- Witness for C5 (amended) at a concrete row whose `lat` does not
parse. -/
theorem c5_witness :
    GenScript.processRow c5WitRow = .ok none ↔
      GenScript.parseCoords c5WitRow.lat c5WitRow.lng = none :=
  (c5_amended c5WitRow 0 rfl "W" "C" "CC" rfl rfl rfl).1

/-- Counterexample to C9 as stated: the row with `population = "-5"`
stores population `-5`, which is negative. -/
theorem c9_counterexample :
    GenScript.processRow c9NegRow =
      .ok (some ⟨"Y", "C", "CC", .finite 10 (-1), .finite 20 (-1), -5⟩) ∧
    (-5 : Int) < 0 :=
  ⟨rfl, by decide⟩

/-- C9 amended: the stored population is an integer (not necessarily
non-negative): truncation of the parsed float when `float()` succeeds on
a finite value, and 0 — silently, with no error surfaced — when the
field is absent, empty, unparseable, or `nan`. -/
theorem c9_amended (p : Option String) :
    (p = none → GenScript.parsePopulation p = .ok 0) ∧
    (p = some "" → GenScript.parsePopulation p = .ok 0) ∧
    (∀ s, p = some s → PyRuntime.pyFloatOfString s = none →
      GenScript.parsePopulation p = .ok 0) ∧
    (∀ s, p = some s → PyRuntime.pyFloatOfString s = some .nan →
      GenScript.parsePopulation p = .ok 0) ∧
    (∀ s sig e, p = some s → s ≠ "" →
      PyRuntime.pyFloatOfString s = some (.finite sig e) →
      GenScript.parsePopulation p = .ok (PyRuntime.truncDecimal sig e)) := by
  refine ⟨?_, ?_, ?_, ?_, ?_⟩
  · rintro rfl
    rfl
  · rintro rfl
    rfl
  · rintro s rfl hs
    by_cases h0 : s = ""
    · subst h0
      rfl
    · simp [GenScript.parsePopulation, GenScript.parsePopulationRaw, h0, hs]
  · rintro s rfl hs
    by_cases h0 : s = ""
    · exact absurd (h0 ▸ hs) (by decide)
    · simp [GenScript.parsePopulation, GenScript.parsePopulationRaw, h0, hs,
        PyRuntime.pyIntOfFloat]
  · rintro s sig e rfl h0 hs
    simp [GenScript.parsePopulation, GenScript.parsePopulationRaw, h0, hs,
      PyRuntime.pyIntOfFloat]

/-- Witness for C9 (amended) at a concrete unparseable population
string. -/
theorem c9_witness : GenScript.parsePopulation (some "x9") = .ok 0 :=
  (c9_amended (some "x9")).2.2.1 "x9" rfl (by decide)
